import Mathlib

/-
Verification of the dea-fmc processing pipeline against its specification.

The definitions below are a shallow embedding of the code in
src/dea_fmc/__main__.py (the pipeline driver, the mask and nodata logic,
the output-location derivation, the SQS loop) together with spec-modelled
definitions for the two helpers that the test-suite references but whose
bodies are not present in the source tree (queue-message identifier
extraction and the configurable SQS identifier iterator).

Floating-point raster cells are modelled symbolically: a cell is either a
rational number, positive or negative infinity, or NaN.  The claims under
study depend only on the infinity/NaN discipline and on order comparisons,
never on rounding, so this model is faithful for them.
-/

namespace DeaFmc

/-- Symbolic model of one floating-point cell value of a raster or of the
flattened feature matrix: a finite rational, plus or minus infinity, or NaN. -/
inductive FVal
  | num (q : ℚ)
  | posInf
  | negInf
  | nan
deriving DecidableEq, Repr

/-- Model of numpy.isinf: true exactly on plus or minus infinity. -/
def FVal.isInf : FVal → Bool
  | .posInf => true
  | .negInf => true
  | _ => false

/-- Model of the comparison `x >= 0` as numpy evaluates it on a float cell:
NaN compares false against everything. -/
def FVal.ge0 : FVal → Bool
  | .num q => decide (0 ≤ q)
  | .posInf => true
  | .negInf => false
  | .nan => false

/-- One cell of `np.where(np.isinf(data_flat), -999, data_flat)`
(src/dea_fmc/__main__.py line 88). -/
def replaceInf (v : FVal) : FVal :=
  if v.isInf then FVal.num (-999) else v

/-- The elementwise infinity substitution applied to the whole flattened
feature matrix (pixel rows times feature columns),
src/dea_fmc/__main__.py line 88. -/
def dataFlatClean (dataFlat : List (List FVal)) : List (List FVal) :=
  dataFlat.map (fun row => row.map replaceInf)

/-- The classification step of `classify_fmc` (src/dea_fmc/__main__.py
lines 86-90): the flattened data is cleaned of infinities and only then
handed to the opaque `model.predict`. -/
def classifyFmc (predict : List (List FVal) → List ℚ)
    (dataFlat : List (List FVal)) : List ℚ :=
  predict (dataFlatClean dataFlat)

/- ----------------------------------------------------------------- -/
/- Masks and the output renderer (src/dea_fmc/__main__.py 373-392).  -/
/- ----------------------------------------------------------------- -/

/-- A pixel coordinate of the raster grid. -/
abbrev Pix := ℤ × ℤ

/-- The raw cloud test `(df.oa_fmask == 2) | (df.oa_fmask == 3)`
(src/dea_fmc/__main__.py line 374). -/
def cloudMask (fmask : Pix → ℤ) (p : Pix) : Bool :=
  fmask p == 2 || fmask p == 3

/-- The water/invalid test
`(df.oa_fmask == 5) | (df.oa_fmask == 0) | (df.oa_nbart_contiguity == 0)`
(src/dea_fmc/__main__.py line 375). -/
def waterMask (fmask contig : Pix → ℤ) (p : Pix) : Bool :=
  fmask p == 5 || fmask p == 0 || contig p == 0

/-- Offsets of the Euclidean disk of radius `r`, the structuring element
used by `odc.algo.mask_cleanup` for a radius-`r` morphological filter. -/
def diskOffsets (r : Nat) : List (ℤ × ℤ) :=
  (((List.range (2 * r + 1)).map (fun i => (i : ℤ) - r)).product
      ((List.range (2 * r + 1)).map (fun i => (i : ℤ) - r))).filter
    (fun d => d.1 * d.1 + d.2 * d.2 ≤ (r : ℤ) * (r : ℤ))

/-- Morphological dilation with a radius-`r` disk. -/
def dilate (r : Nat) (m : Pix → Bool) (p : Pix) : Bool :=
  (diskOffsets r).any (fun d => m (p.1 + d.1, p.2 + d.2))

/-- Morphological erosion with a radius-`r` disk. -/
def erode (r : Nat) (m : Pix → Bool) (p : Pix) : Bool :=
  (diskOffsets r).all (fun d => m (p.1 + d.1, p.2 + d.2))

/-- The morphological filters understood by `odc.algo.mask_cleanup`. -/
inductive MaskFilter
  | opening (r : Nat)
  | dilation (r : Nat)
deriving DecidableEq, Repr

/-- Apply one mask filter: opening is erosion followed by dilation with the
same radius. -/
def applyMaskFilter : MaskFilter → (Pix → Bool) → (Pix → Bool)
  | .opening r, m => dilate r (erode r m)
  | .dilation r, m => dilate r m

/-- Model of `odc.algo.mask_cleanup(mask, mask_filters=...)`: the filters are
applied left to right. -/
def maskCleanup (filters : List MaskFilter) (m : Pix → Bool) : Pix → Bool :=
  filters.foldl (fun acc f => applyMaskFilter f acc) m

/-- The cleaned cloud mask
`mask_cleanup(mask=cloud_mask, mask_filters=[("opening", 1), ("dilation", 3)])`
(src/dea_fmc/__main__.py lines 376-378). -/
def betterCloudMask (fmask : Pix → ℤ) : Pix → Bool :=
  maskCleanup [MaskFilter.opening 1, MaskFilter.dilation 3] (cloudMask fmask)

/-- The keep condition `~better_cloud_mask & ~water_mask` used in
`fmc_data.where(...)` (src/dea_fmc/__main__.py line 383). -/
def keepMask (fmask contig : Pix → ℤ) (p : Pix) : Bool :=
  !betterCloudMask fmask p && !waterMask fmask contig p

/-- The exclusion mask: the complement of the keep condition, i.e. the set of
pixels suppressed by `fmc_data.where(~better_cloud_mask & ~water_mask)`. -/
def exclusionMask (fmask contig : Pix → ℤ) (p : Pix) : Bool :=
  !keepMask fmask contig p

/-- The masked classification raster
`masked_data = fmc_data.where(~better_cloud_mask & ~water_mask)`
(src/dea_fmc/__main__.py line 383): excluded pixels become NaN. -/
def maskedAfterWhere (fmc : Pix → ℚ) (fmask contig : Pix → ℤ) (p : Pix) : FVal :=
  if keepMask fmask contig p then FVal.num (fmc p) else FVal.nan

/-- One cell of the final nodata pass
`masked_data.where(masked_data >= 0, -999)` (src/dea_fmc/__main__.py
line 389): a cell is kept where it compares `>= 0`, otherwise (negative or
NaN) it becomes -999. -/
def nodataPass (v : FVal) : FVal :=
  if v.ge0 then v else FVal.num (-999)

/-- Truncation of a rational toward zero, as C-style float-to-int casting
does. -/
def ratTruncToward0 (q : ℚ) : ℤ :=
  if 0 ≤ q then ⌊q⌋ else -⌊-q⌋

/-- Wrap an integer into the signed 16-bit range, the behaviour of
numpy `astype("int16")` on an in-range-or-not integral value. -/
def int16wrap (z : ℤ) : ℤ :=
  (z + 32768) % 65536 - 32768

/-- Cast one cell to int16 (`astype("int16")`, src/dea_fmc/__main__.py
line 389).  The non-finite branches are unreachable after `nodataPass`;
their value matches common numpy behaviour on this platform. -/
def toInt16 : FVal → ℤ
  | .num q => int16wrap (ratTruncToward0 q)
  | _ => -32768

/-- The persisted output raster
`masked_data.where(masked_data >= 0, -999).astype("int16")`
(src/dea_fmc/__main__.py line 389), one pixel at a time. -/
def outputRaster (fmc : Pix → ℚ) (fmask contig : Pix → ℤ) (p : Pix) : ℤ :=
  toInt16 (nodataPass (maskedAfterWhere fmc fmask contig p))

/- ----------------------------------------------------------------- -/
/- Output-location derivation (src/dea_fmc/__main__.py 323, 328-354). -/
/- ----------------------------------------------------------------- -/

/-- The fields of the remote process configuration that the output-location
derivation reads. -/
structure ProcessCfg where
  outputFolder : String
  productVersionRaw : String
deriving DecidableEq, Repr

/-- Catalog record of a source dataset, reduced to the fields that the
pipeline reads when deriving the output location.  The uuid is carried to
show that the derivation does not depend on it. -/
structure DatasetRecord where
  uuid : String
  srcProductName : String
  regionCode : String
  acquisitionDate : String
deriving DecidableEq, Repr

/-- The product-name mapping of src/dea_fmc/__main__.py lines 328-339:
known source products map to an FMC product name, anything else is a skip. -/
def productNameOf (srcProductName : String) : Option String :=
  if srcProductName = "ga_s2am_ard_3" then some "ga_s2am_fmc"
  else if srcProductName = "ga_s2bm_ard_3" then some "ga_s2bm_fmc"
  else if srcProductName = "ga_s2cm_ard_3" then some "ga_s2cm_fmc"
  else none

/-- `product_version = str(process_cfg["product"]["version"]).replace(".", "-")`
(src/dea_fmc/__main__.py line 323). -/
def productVersionOf (cfg : ProcessCfg) : String :=
  cfg.productVersionRaw.replace "." "-"

/-- The local output filename (src/dea_fmc/__main__.py line 349). -/
def localTif (productName productVersion regionCode acquisitionDate : String) :
    String :=
  productName ++ "_" ++ productVersion ++ "_" ++ regionCode ++ "_"
    ++ acquisitionDate ++ "_final_fmc.tif"

/-- The S3 folder (src/dea_fmc/__main__.py lines 350-353): output folder,
product name, version, the first two characters of the region code, the rest
of the region code, then the acquisition date with `-` replaced by `/`. -/
def s3FolderFor (outputFolder productName productVersion regionCode
    acquisitionDate : String) : String :=
  outputFolder ++ "/" ++ productName ++ "/" ++ productVersion ++ "/"
    ++ (regionCode.take 2) ++ "/" ++ (regionCode.drop 2) ++ "/"
    ++ (acquisitionDate.replace "-" "/")

/-- The full output URI `s3_file_uri = f"{s3_folder}/{local_tif}"`
(src/dea_fmc/__main__.py line 354). -/
def s3FileUriFor (outputFolder productName productVersion regionCode
    acquisitionDate : String) : String :=
  s3FolderFor outputFolder productName productVersion regionCode acquisitionDate
    ++ "/"
    ++ localTif productName productVersion regionCode acquisitionDate

/-- The output location derived for a dataset record under a configuration,
following src/dea_fmc/__main__.py lines 323-354; `none` when the source
product is not a supported mapping. -/
def resolveOutputLocation (cfg : ProcessCfg) (d : DatasetRecord) :
    Option String :=
  (productNameOf d.srcProductName).map (fun pn =>
    s3FileUriFor cfg.outputFolder pn (productVersionOf cfg) d.regionCode
      d.acquisitionDate)

/- ----------------------------------------------------------------- -/
/- Control-flow skeleton of process_dataset (src/dea_fmc/__main__.py   -/
/- lines 298-417.)                                                     -/
/- ----------------------------------------------------------------- -/

/-- The externally observable steps of `process_dataset`, in source order.
Pure in-memory computations (mask algebra, path strings, the nodata pass)
are not steps: they cannot fail and do no external work. -/
inductive Action
  | initDatacube
  | loadConfig
  | getDataset
  | downloadModel
  | checkExists
  | loadRaster
  | classify
  | renderThumbnail
  | writeCog
  | uploadTif
  | uploadStacMeta
  | uploadOdcMeta
  | uploadThumbnail
  | removeLocalFiles
deriving DecidableEq, Repr

/-- How one call of `process_dataset` ends.  `ret` is an ordinary Python
return; `sysExitZero` is `sys.exit(0)`, which raises `SystemExit(0)` (not an
`Exception`); `exc` is an ordinary `Exception` from one of the external
steps. -/
inductive ProcResult
  | ret
  | sysExitZero
  | exc
deriving DecidableEq, Repr

/-- The environment one `process_dataset` call runs against: the source
product of the dataset, the overwrite flag, whether the output object
already exists on S3, and which external steps raise an `Exception`. -/
structure ProcEnv where
  srcProductName : String
  overwrite : Bool
  outputExists : Bool
  fails : Action → Bool

/-- Run one external step: record it, and if the environment makes it raise,
end the call with an `Exception`; otherwise continue with the rest. -/
def stepThen (env : ProcEnv) (a : Action) (k : List Action × ProcResult) :
    List Action × ProcResult :=
  if env.fails a then ([a], ProcResult.exc) else (a :: k.1, k.2)

/-- The tail of `process_dataset` after the skip-if-exists check
(src/dea_fmc/__main__.py lines 364-417): load, classify, render, persist,
upload, publish metadata, remove scratch files, then `sys.exit(0)`. -/
def restOfPipeline (env : ProcEnv) : List Action × ProcResult :=
  stepThen env Action.loadRaster <|
  stepThen env Action.classify <|
  stepThen env Action.renderThumbnail <|
  stepThen env Action.writeCog <|
  stepThen env Action.uploadTif <|
  stepThen env Action.uploadStacMeta <|
  stepThen env Action.uploadOdcMeta <|
  stepThen env Action.uploadThumbnail <|
  stepThen env Action.removeLocalFiles <|
  ([], ProcResult.sysExitZero)

/-- The control-flow skeleton of `process_dataset`
(src/dea_fmc/__main__.py lines 298-417): initialise the datacube, load the
configuration, fetch the dataset record; an unknown source product is a
logged skip ending in `sys.exit(0)`; then download the model; then, only
when overwrite is disabled, check S3 for the output and skip via
`sys.exit(0)` if it exists; otherwise run the remaining pipeline, which
itself ends in `sys.exit(0)`. -/
def processDataset (env : ProcEnv) : List Action × ProcResult :=
  stepThen env Action.initDatacube <|
  stepThen env Action.loadConfig <|
  stepThen env Action.getDataset <|
  match productNameOf env.srcProductName with
  | none => ([], ProcResult.sysExitZero)
  | some _ =>
    stepThen env Action.downloadModel <|
    if env.overwrite then restOfPipeline env
    else
      stepThen env Action.checkExists <|
      if env.outputExists then ([], ProcResult.sysExitZero)
      else restOfPipeline env

/-- The load/classify/render/upload steps: the work that must not happen for
an identifier that is skipped because its output already exists. -/
def isHeavyWork : Action → Bool
  | Action.loadRaster => true
  | Action.classify => true
  | Action.renderThumbnail => true
  | Action.writeCog => true
  | Action.uploadTif => true
  | Action.uploadStacMeta => true
  | Action.uploadOdcMeta => true
  | Action.uploadThumbnail => true
  | _ => false

/- ----------------------------------------------------------------- -/
/- The SQS-driven loop (src/dea_fmc/__main__.py lines 492-532).        -/
/- ----------------------------------------------------------------- -/

/-- Process the messages of one received batch in order
(src/dea_fmc/__main__.py lines 518-530).  Returns the messages for which
`process_dataset` was invoked, the messages for which `delete_message` ran,
and whether a `SystemExit` escaped the `except Exception` handler and
aborted the whole program.  `delete_message` runs only when
`process_dataset` returns normally; `SystemExit` is not an `Exception`, so
it propagates; an `Exception` is caught and the loop moves on without
deleting. -/
def processBatch (outcome : String → ProcResult) :
    List String → List String × List String × Bool
  | [] => ([], [], false)
  | m :: rest =>
    match outcome m with
    | ProcResult.ret =>
      let r := processBatch outcome rest
      (m :: r.1, m :: r.2.1, r.2.2)
    | ProcResult.sysExitZero => ([m], [], true)
    | ProcResult.exc =>
      let r := processBatch outcome rest
      (m :: r.1, r.2.1, r.2.2)

/-- How a run of `fmc_processing_with_sqs` ends: `emptyPollLimit` is the
`break` after the empty-poll limit (the function then returns and the
process exits 0); `systemExit` is a `SystemExit(0)` escaping the loop (the
process also exits 0); `outOfTrace` means the supplied finite interaction
trace ended before the loop did. -/
inductive RunEnd
  | emptyPollLimit
  | systemExit
  | outOfTrace
deriving DecidableEq, Repr

/-- Observable outcome of a run of the SQS loop. -/
structure RunState where
  attempted : List String
  deleted : List String
  ending : RunEnd
deriving DecidableEq, Repr

/-- The polling loop of `fmc_processing_with_sqs`
(src/dea_fmc/__main__.py lines 499-532), driven by a finite trace of
`receive_message` results and the consecutive-empty-poll counter
`no_message_count`: an empty poll increments the counter and breaks at the
limit; a non-empty poll resets the counter to zero and processes the batch;
a `SystemExit` escaping the batch ends the whole run. -/
def runLoop (outcome : String → ProcResult) (limit : Nat) :
    List (List String) → Nat → RunState
  | [], _ => ⟨[], [], RunEnd.outOfTrace⟩
  | batch :: rest, cnt =>
    if batch.isEmpty then
      if limit ≤ cnt + 1 then ⟨[], [], RunEnd.emptyPollLimit⟩
      else runLoop outcome limit rest (cnt + 1)
    else if (processBatch outcome batch).2.2 then
      ⟨(processBatch outcome batch).1, (processBatch outcome batch).2.1,
        RunEnd.systemExit⟩
    else
      ⟨(processBatch outcome batch).1 ++ (runLoop outcome limit rest 0).attempted,
       (processBatch outcome batch).2.1 ++ (runLoop outcome limit rest 0).deleted,
       (runLoop outcome limit rest 0).ending⟩

/-- The `fmc_processing_with_sqs` command: the loop with its hard-coded
limit of 10 consecutive empty polls, starting with a zero counter. -/
def fmcProcessingWithSqs (outcome : String → ProcResult)
    (polls : List (List String)) : RunState :=
  runLoop outcome 10 polls 0

/- ----------------------------------------------------------------- -/
/- CLI overwrite defaults (src/dea_fmc/__main__.py 440-447, 487-494). -/
/- ----------------------------------------------------------------- -/

/-- Resolution of the click flag `--overwrite or --no-overwrite` with
`default=True`: `none` models an invocation that passes neither flag. -/
def resolveOverwriteFlag (given : Option Bool) : Bool :=
  given.getD true

/-- The default of the `--overwrite or --no-overwrite` option of the
`fmc-processing` command (src/dea_fmc/__main__.py lines 440-444). -/
def fmcProcessingOverwriteDefault : Bool :=
  resolveOverwriteFlag none

/-- The default of the `--overwrite or --no-overwrite` option of the
`fmc-processing-with-sqs` command (src/dea_fmc/__main__.py lines 487-491). -/
def fmcProcessingWithSqsOverwriteDefault : Bool :=
  resolveOverwriteFlag none

/-- The skip-if-exists test of src/dea_fmc/__main__.py line 357:
`if not overwrite and check_s3_file_exists(...)`.  The existence check is
short-circuited away when overwrite is true. -/
def skipCheckTaken (overwrite outputExists : Bool) : Bool :=
  !overwrite && outputExists

/- ----------------------------------------------------------------- -/
/- Queue message identifier extraction (spec-modelled).                -/
/- ----------------------------------------------------------------- -/

mutual

/-- A JSON value, restricted to the fragment the accepted message shapes
use: strings and objects.  Mutual with the field lists of objects. -/
inductive Json
  | jstr : String → Json
  | jobj : JFields → Json
deriving DecidableEq

/-- Field lists of a JSON object. -/
inductive JFields
  | nil
  | cons : String → Json → JFields → JFields
deriving DecidableEq

end

/-- Look a key up in a field list; the first binding wins. -/
def lookupField : JFields → String → Option Json
  | JFields.nil, _ => none
  | JFields.cons k v rest, key => if k = key then some v else lookupField rest key

mutual

/-- Size measure of a JSON value, used as a parser fuel bound. -/
def jsonSize : Json → Nat
  | Json.jstr _ => 1
  | Json.jobj fs => jfieldsSize fs + 1

/-- Size measure of a field list. -/
def jfieldsSize : JFields → Nat
  | JFields.nil => 1
  | JFields.cons _ v rest => jsonSize v + jfieldsSize rest + 1

end

/-- Escape a character sequence as the body of a JSON string literal:
quotes and backslashes get a preceding backslash, as json.dumps emits and
json.loads consumes. -/
def escapeChars : List Char → List Char
  | [] => []
  | c :: cs =>
    if c = '"' ∨ c = '\\' then '\\' :: c :: escapeChars cs
    else c :: escapeChars cs

/-- Render a string as a JSON string literal. -/
def renderStr (s : String) : List Char :=
  '"' :: (escapeChars s.toList ++ ['"'])

mutual

/-- Render a JSON value in the canonical form used by this model. -/
def renderVal : Json → List Char
  | Json.jstr s => renderStr s
  | Json.jobj fs => '\x7b' :: renderFields fs

/-- Render the fields of an object, including the closing brace. -/
def renderFields : JFields → List Char
  | JFields.nil => ['\x7d']
  | JFields.cons k v JFields.nil =>
    renderStr k ++ ':' :: (renderVal v ++ ['\x7d'])
  | JFields.cons k v (JFields.cons k2 v2 rest) =>
    renderStr k ++ ':' :: (renderVal v ++ ',' :: renderFields (JFields.cons k2 v2 rest))

end

/-- Parse the body of a JSON string literal after its opening quote,
honouring backslash escapes; returns the unescaped content and the
remaining input after the closing quote. -/
def parseStrBody : List Char → Option (List Char × List Char)
  | [] => none
  | c :: rest =>
    if c = '"' then some ([], rest)
    else if c = '\\' then
      match rest with
      | [] => none
      | d :: rest2 => (parseStrBody rest2).map (fun r => (d :: r.1, r.2))
    else (parseStrBody rest).map (fun r => (c :: r.1, r.2))

mutual

/-- Fuel-bounded recursive-descent parser for the JSON fragment: model of
json.loads restricted to strings and objects.  Returns the value and the
remaining input, or `none` on malformed input or exhausted fuel. -/
def parseVal : Nat → List Char → Option (Json × List Char)
  | 0, _ => none
  | Nat.succ fuel, cs =>
    match cs with
    | [] => none
    | c :: rest =>
      if c = '"' then
        (parseStrBody rest).map (fun r => (Json.jstr (String.mk r.1), r.2))
      else if c = '\x7b' then
        (parseFields fuel rest).map (fun r => (Json.jobj r.1, r.2))
      else none

/-- Parse the fields of an object after its opening brace, consuming the
closing brace. -/
def parseFields : Nat → List Char → Option (JFields × List Char)
  | 0, _ => none
  | Nat.succ fuel, cs =>
    match cs with
    | [] => none
    | c :: rest =>
      if c = '\x7d' then some (JFields.nil, rest)
      else if c = '"' then
        match parseStrBody rest with
        | none => none
        | some (key, rest2) =>
          match rest2 with
          | [] => none
          | c1 :: rest3 =>
            if c1 = ':' then
              match parseVal fuel rest3 with
              | none => none
              | some (v, rest4) =>
                match rest4 with
                | [] => none
                | c2 :: rest5 =>
                  if c2 = ',' then
                    (parseFields fuel rest5).map
                      (fun r => (JFields.cons (String.mk key) v r.1, r.2))
                  else if c2 = '\x7d' then
                    some (JFields.cons (String.mk key) v JFields.nil, rest5)
                  else none
            else none
      else none

end

/-- A hexadecimal digit. -/
def isHexDigit (c : Char) : Bool :=
  c.isDigit || ('a' ≤ c && c ≤ 'f') || ('A' ≤ c && c ≤ 'F')

/-- Modelled from the spec: the identifier-validity test that
`_extract_uuid_from_body` applies (its body is not in the source tree; its
tests in src/tests/test_uuid_parsing.py require "not-a-uuid" to be
rejected even when it appears under a known key).  A valid identifier is a
canonical textual UUID: 36 characters, hyphens at positions 8, 13, 18 and
23, hexadecimal digits elsewhere. -/
def isValidUuid (s : String) : Bool :=
  s.toList.length == 36 &&
    (List.range 36).all (fun i =>
      if i = 8 ∨ i = 13 ∨ i = 18 ∨ i = 23 then s.toList.getD i ' ' == '-'
      else isHexDigit (s.toList.getD i ' '))

/-- Pass a candidate identifier through the validity test. -/
def validated (s : String) : Option String :=
  if isValidUuid s then some s else none

/-- Look up a key whose value must be a JSON string. -/
def getStrField (fs : JFields) (k : String) : Option String :=
  match lookupField fs k with
  | some (Json.jstr s) => some s
  | _ => none

/-- Modelled from the spec: the envelope-free part of
`_extract_uuid_from_body` (absent from the source tree; spec section 6
lists the accepted shapes).  A bare JSON string is itself the candidate; an
object is probed for `id`, then `dataset_uuid`, then the nested
`feature.id`; every candidate must pass the validity test. -/
def extractUuidBase : Json → Option String
  | Json.jstr s => validated s
  | Json.jobj fs =>
    ((getStrField fs "id").bind validated) <|>
    ((getStrField fs "dataset_uuid").bind validated) <|>
    ((match lookupField fs "feature" with
      | some (Json.jobj gs) => getStrField gs "id"
      | _ => none).bind validated)

/-- Parse a whole body as one JSON document: the parse must consume the
entire input.  Models a successful `json.loads`; `none` models its
`ValueError`. -/
def parseFullDoc (s : String) : Option Json :=
  match parseVal (s.toList.length + 1) s.toList with
  | some (j, []) => some j
  | _ => none

/-- Modelled from the spec: the envelope shape — an object whose `Message`
field holds a stringified JSON document, which is re-parsed and probed
with the base extraction. -/
def extractEnvelope (j : Json) : Option String :=
  match j with
  | Json.jobj fs =>
    match getStrField fs "Message" with
    | some s => (parseFullDoc s).bind extractUuidBase
    | none => none
  | _ => none

/-- Modelled from the spec: the full per-document extraction — the base
shapes first, then the envelope shape. -/
def extractUuidFromJson (j : Json) : Option String :=
  extractUuidBase j <|> extractEnvelope j

/-- Modelled from the spec: `_extract_uuid_from_body` (absent from the
source tree; referenced by src/tests/test_uuid_parsing.py).  The body is
parsed as JSON when possible and probed for an identifier; a body that is
not JSON is taken as a bare identifier candidate.  Every path returns an
optional identifier; nothing raises. -/
def extractUuidFromBody (body : String) : Option String :=
  match parseFullDoc body with
  | some j => extractUuidFromJson j
  | none => validated body

/- ----------------------------------------------------------------- -/
/- The configurable SQS identifier iterator (spec-modelled).           -/
/- ----------------------------------------------------------------- -/

/-- Modelled from the spec: the default empty-poll limit of the queue task
source (spec section 4.1: "after N consecutive empty polls (configurable,
default 10) the sequence terminates"; the loop in src/dea_fmc/__main__.py
uses the same constant 10). -/
def defaultMaxEmptyPolls : Nat := 10

/-- Modelled from the spec: the polling loop of `get_uuid_iterator_from_sqs`
(absent from the source tree; referenced by src/tests/test_sqs_iterator.py),
driven by a finite trace of `receive_message` results.  Returns the yielded
identifiers — each message body run through the extraction, malformed
bodies skipped — and the number of polls performed.  An empty poll
increments the consecutive-empty counter and the sequence ends when it
reaches the limit; a non-empty poll resets the counter to zero. -/
def uuidIteratorRun (maxEmptyPolls : Nat) :
    List (List String) → Nat → List String × Nat
  | [], _ => ([], 0)
  | batch :: rest, cnt =>
    if batch.isEmpty then
      if maxEmptyPolls ≤ cnt + 1 then ([], 1)
      else ((uuidIteratorRun maxEmptyPolls rest (cnt + 1)).1,
            (uuidIteratorRun maxEmptyPolls rest (cnt + 1)).2 + 1)
    else (batch.filterMap extractUuidFromBody
            ++ (uuidIteratorRun maxEmptyPolls rest 0).1,
          (uuidIteratorRun maxEmptyPolls rest 0).2 + 1)

/-- The iterator with its default empty-poll limit. -/
def uuidIteratorRunDefault : List (List String) → Nat → List String × Nat :=
  uuidIteratorRun defaultMaxEmptyPolls

/- ----------------------------------------------------------------- -/
/- Helper lemmas.                                                      -/
/- ----------------------------------------------------------------- -/

lemma int16wrap_range (z : ℤ) : -32768 ≤ int16wrap z ∧ int16wrap z ≤ 32767 := by
  unfold int16wrap
  have h1 : 0 ≤ (z + 32768) % 65536 := Int.emod_nonneg _ (by norm_num)
  have h2 : (z + 32768) % 65536 < 65536 := Int.emod_lt_of_pos _ (by norm_num)
  omega

lemma int16wrap_of_range (z : ℤ) (hlo : -32768 ≤ z) (hhi : z ≤ 32767) :
    int16wrap z = z := by
  unfold int16wrap
  rw [Int.emod_eq_of_lt (by omega) (by omega)]
  omega

lemma ratTruncToward0_intCast (n : ℤ) : ratTruncToward0 (n : ℚ) = n := by
  unfold ratTruncToward0
  by_cases h : (0 : ℚ) ≤ (n : ℚ)
  · rw [if_pos h, Int.floor_intCast]
  · rw [if_neg h]
    rw [show (-(n : ℚ)) = ((-n : ℤ) : ℚ) by push_cast; ring, Int.floor_intCast]
    ring

lemma toInt16_neg999 : toInt16 (FVal.num (-999)) = -999 := by
  have : ((-999 : ℚ)) = ((-999 : ℤ) : ℚ) := by norm_num
  rw [toInt16, this, ratTruncToward0_intCast]
  exact int16wrap_of_range _ (by norm_num) (by norm_num)

lemma toInt16_range (v : FVal) : -32768 ≤ toInt16 v ∧ toInt16 v ≤ 32767 := by
  cases v with
  | num q => exact int16wrap_range _
  | posInf => exact ⟨by decide, by decide⟩
  | negInf => exact ⟨by decide, by decide⟩
  | nan => exact ⟨by decide, by decide⟩

/- ----------------------------------------------------------------- -/
/- Claim theorems.                                                     -/
/- ----------------------------------------------------------------- -/

/-- C3: in `classify_fmc`, the flattened feature matrix handed to
`model.predict` is exactly the input matrix with every plus-or-minus
infinity cell replaced by the sentinel -999; no cell of the matrix passed
to `predict` is an infinity, and every other cell is unchanged. -/
theorem c3_inf_replaced_before_predict
    (predict : List (List FVal) → List ℚ) (dataFlat : List (List FVal)) :
    classifyFmc predict dataFlat = predict (dataFlatClean dataFlat) ∧
    (∀ row ∈ dataFlatClean dataFlat, ∀ v ∈ row, v.isInf = false) ∧
    (∀ i j : Nat, ∀ row v, dataFlat[i]? = some row → row[j]? = some v →
      ∃ row2, (dataFlatClean dataFlat)[i]? = some row2 ∧
        row2[j]? = some (if v.isInf then FVal.num (-999) else v)) := by
  refine ⟨rfl, ?_, ?_⟩
  · intro row hrow v hv
    simp only [dataFlatClean, List.mem_map] at hrow
    obtain ⟨r, _, rfl⟩ := hrow
    simp only [List.mem_map] at hv
    obtain ⟨w, _, rfl⟩ := hv
    cases w <;> simp [replaceInf, FVal.isInf]
  · intro i j row v hi hj
    refine ⟨row.map replaceInf, ?_, ?_⟩
    · simp [dataFlatClean, List.getElem?_map, hi]
    · simp [List.getElem?_map, hj, replaceInf]

/-- Witness for C3 at a concrete matrix containing an infinity. -/
theorem c3_witness :
    (∀ row ∈ dataFlatClean [[FVal.posInf, FVal.num 2]], ∀ v ∈ row,
        v.isInf = false) ∧
    (∃ row2, (dataFlatClean [[FVal.posInf, FVal.num 2]])[0]? = some row2 ∧
        row2[0]? = some (if (FVal.posInf).isInf then FVal.num (-999)
          else FVal.posInf)) :=
  ⟨(c3_inf_replaced_before_predict (fun _ => []) _).2.1,
   (c3_inf_replaced_before_predict (fun _ => []) _).2.2 0 0
      [FVal.posInf, FVal.num 2] FVal.posInf rfl rfl⟩

/-- C4: the exclusion mask of the output renderer equals the pointwise OR
of the cleaned cloud test (the raw cloud test cleaned by one opening pass
of radius 1 followed by one dilation pass of radius 3) and the
water/invalid test, and every pixel it flags receives the nodata value
-999 in the output raster. -/
theorem c4_exclusion_is_union (fmc : Pix → ℚ) (fmask contig : Pix → ℤ)
    (p : Pix) :
    exclusionMask fmask contig p
      = (maskCleanup [MaskFilter.opening 1, MaskFilter.dilation 3]
          (cloudMask fmask) p || waterMask fmask contig p) ∧
    (exclusionMask fmask contig p = true →
        outputRaster fmc fmask contig p = -999) := by
  constructor
  · unfold exclusionMask keepMask betterCloudMask
    cases maskCleanup [MaskFilter.opening 1, MaskFilter.dilation 3]
        (cloudMask fmask) p <;>
      cases waterMask fmask contig p <;> rfl
  · intro hex
    have hkeep : keepMask fmask contig p = false := by
      unfold exclusionMask at hex
      cases h : keepMask fmask contig p
      · rfl
      · rw [h] at hex; exact absurd hex (by decide)
    unfold outputRaster maskedAfterWhere
    rw [hkeep]
    simp only [Bool.false_eq_true, if_false]
    rw [show nodataPass FVal.nan = FVal.num (-999) from rfl]
    exact toInt16_neg999

/-- Witness for C4: an all-cloud scene is wholly excluded and renders as
-999. -/
theorem c4_witness :
    outputRaster (fun _ => 5) (fun _ => 2) (fun _ => 1) (0, 0) = -999 :=
  (c4_exclusion_is_union (fun _ => 5) (fun _ => 2) (fun _ => 1) (0, 0)).2
    (by decide)

/-- C5: in the final nodata pass, a pixel whose classification value is
strictly negative becomes -999, an already-masked (NaN) pixel becomes
-999, a pixel with value at least 0 keeps its classified value through the
int16 cast (exactly, when the value is an integer in int16 range), and
every output cell lies in the signed 16-bit range. -/
theorem c5_nodata_pass (fmc : Pix → ℚ) (fmask contig : Pix → ℤ) (p : Pix)
    (v : ℚ) :
    (maskedAfterWhere fmc fmask contig p = FVal.num v → v < 0 →
        outputRaster fmc fmask contig p = -999) ∧
    (maskedAfterWhere fmc fmask contig p = FVal.nan →
        outputRaster fmc fmask contig p = -999) ∧
    (maskedAfterWhere fmc fmask contig p = FVal.num v → 0 ≤ v →
        outputRaster fmc fmask contig p = int16wrap (ratTruncToward0 v)) ∧
    (∀ n : ℤ, maskedAfterWhere fmc fmask contig p = FVal.num (n : ℚ) →
        0 ≤ n → n ≤ 32767 → outputRaster fmc fmask contig p = n) ∧
    (-32768 ≤ outputRaster fmc fmask contig p ∧
        outputRaster fmc fmask contig p ≤ 32767) := by
  refine ⟨?_, ?_, ?_, ?_, ?_⟩
  · intro hm hv
    unfold outputRaster
    rw [hm]
    have : (FVal.num v).ge0 = false := by
      simp [FVal.ge0]; exact hv
    rw [show nodataPass (FVal.num v) = FVal.num (-999) by
      unfold nodataPass; rw [this]; simp]
    exact toInt16_neg999
  · intro hm
    unfold outputRaster
    rw [hm]
    rw [show nodataPass FVal.nan = FVal.num (-999) from rfl]
    exact toInt16_neg999
  · intro hm hv
    unfold outputRaster
    rw [hm]
    rw [show nodataPass (FVal.num v) = FVal.num v by
      unfold nodataPass FVal.ge0; rw [if_pos (by simpa using hv)]]
    rfl
  · intro n hm h0 h32
    unfold outputRaster
    rw [hm]
    rw [show nodataPass (FVal.num (n : ℚ)) = FVal.num (n : ℚ) by
      unfold nodataPass FVal.ge0
      rw [if_pos (by simp; exact_mod_cast h0)]]
    rw [toInt16, ratTruncToward0_intCast]
    exact int16wrap_of_range _ (by omega) h32
  · exact toInt16_range _

/-- Witness for C5 at concrete clear and negative-valued pixels. -/
theorem c5_witness :
    outputRaster (fun _ => -3) (fun _ => 1) (fun _ => 1) (0, 0) = -999 ∧
    outputRaster (fun _ => 5) (fun _ => 1) (fun _ => 1) (0, 0) = 5 :=
  ⟨(c5_nodata_pass (fun _ => -3) (fun _ => 1) (fun _ => 1) (0, 0) (-3)).1
      (by decide) (by norm_num),
   (c5_nodata_pass (fun _ => 5) (fun _ => 1) (fun _ => 1) (0, 0) 5).2.2.2.1 5
      (by decide) (by decide) (by decide)⟩

/-- C7: the output-location derivation is deterministic — it reads only the
product mapping, the configured folder and version, the region code and
the acquisition date; two dataset records agreeing on those fields (even
with different uuids) resolve to the identical URI under the same
configuration. -/
theorem c7_output_location_deterministic (cfg : ProcessCfg)
    (d1 d2 : DatasetRecord) (hp : d1.srcProductName = d2.srcProductName)
    (hr : d1.regionCode = d2.regionCode)
    (hd : d1.acquisitionDate = d2.acquisitionDate) :
    resolveOutputLocation cfg d1 = resolveOutputLocation cfg d2 := by
  unfold resolveOutputLocation
  rw [hp, hr, hd]

/-- Witness for C7: two acquisitions differing only in uuid resolve to the
same output location. -/
theorem c7_witness :
    resolveOutputLocation ⟨"s3://dea-public-data/derivative", "1.0"⟩
        ⟨"uuid-one", "ga_s2am_ard_3", "55HFA", "2024-01-02"⟩
      = resolveOutputLocation ⟨"s3://dea-public-data/derivative", "1.0"⟩
        ⟨"uuid-two", "ga_s2am_ard_3", "55HFA", "2024-01-02"⟩ :=
  c7_output_location_deterministic _ _ _ rfl rfl rfl

/-- C10: with neither overwrite flag given, both CLI commands default
overwrite to true, so the skip-if-exists test is bypassed whether or not
the output exists, and a dataset whose output already exists is fully
reprocessed (the raster is loaded and the existence check is not even
made). -/
theorem c10_overwrite_defaults_true :
    fmcProcessingOverwriteDefault = true ∧
    fmcProcessingWithSqsOverwriteDefault = true ∧
    skipCheckTaken fmcProcessingOverwriteDefault true = false ∧
    skipCheckTaken fmcProcessingOverwriteDefault false = false ∧
    Action.loadRaster ∈ (processDataset
      ⟨"ga_s2am_ard_3", fmcProcessingOverwriteDefault, true,
        fun _ => false⟩).1 ∧
    Action.checkExists ∉ (processDataset
      ⟨"ga_s2am_ard_3", fmcProcessingOverwriteDefault, true,
        fun _ => false⟩).1 := by
  refine ⟨rfl, rfl, rfl, rfl, ?_, ?_⟩ <;> decide

lemma mem_stepThen {env : ProcEnv} {a a2 : Action}
    {k : List Action × ProcResult} (h : a2 ∈ (stepThen env a k).1) :
    a2 = a ∨ a2 ∈ k.1 := by
  unfold stepThen at h
  split at h <;> simp_all

lemma stepThen_snd (env : ProcEnv) (a : Action) (k : List Action × ProcResult) :
    (stepThen env a k).2 = if env.fails a then ProcResult.exc else k.2 := by
  unfold stepThen
  split <;> simp_all

lemma restOfPipeline_snd_ne_ret (env : ProcEnv) :
    (restOfPipeline env).2 ≠ ProcResult.ret := by
  unfold restOfPipeline
  simp only [stepThen_snd]
  split_ifs <;> simp

/-- Every path of `process_dataset` ends in `sys.exit(0)` or an exception:
the function never returns normally to its caller. -/
lemma processDataset_never_returns (env : ProcEnv) :
    (processDataset env).2 ≠ ProcResult.ret := by
  unfold processDataset
  cases productNameOf env.srcProductName <;>
    simp only [stepThen_snd, apply_ite Prod.snd] <;>
      split_ifs <;>
        simp [restOfPipeline_snd_ne_ret]

lemma processBatch_no_delete (outcome : String → ProcResult)
    (h : ∀ m, outcome m ≠ ProcResult.ret) (batch : List String) :
    (processBatch outcome batch).2.1 = [] := by
  induction batch with
  | nil => rfl
  | cons m rest ih =>
    unfold processBatch
    cases ho : outcome m with
    | ret => exact absurd ho (h m)
    | sysExitZero => rfl
    | exc => simpa using ih

lemma runLoop_no_delete (outcome : String → ProcResult)
    (h : ∀ m, outcome m ≠ ProcResult.ret) (limit : Nat)
    (polls : List (List String)) (cnt : Nat) :
    (runLoop outcome limit polls cnt).deleted = [] := by
  induction polls generalizing cnt with
  | nil => rfl
  | cons batch rest ih =>
    unfold runLoop
    split_ifs with h1 h2 h3
    · rfl
    · exact ih (cnt + 1)
    · exact processBatch_no_delete outcome h batch
    · show (processBatch outcome batch).2.1
          ++ (runLoop outcome limit rest 0).deleted = []
      rw [processBatch_no_delete outcome h batch, ih 0]
      rfl

/-- C6: when overwrite is disabled and the output object already exists,
`process_dataset` performs none of the load, classify, render or upload
steps — whatever the environment does elsewhere — and, when the steps up
to the existence check do not themselves raise, the call ends as a clean
skip (`sys.exit(0)`), before any source raster is loaded. -/
theorem c6_skip_if_exists (env : ProcEnv) (ho : env.overwrite = false)
    (he : env.outputExists = true) :
    (∀ a ∈ (processDataset env).1, isHeavyWork a = false) ∧
    ((∀ a, env.fails a = false) →
        (processDataset env).2 = ProcResult.sysExitZero) := by
  constructor
  · intro a ha
    unfold processDataset at ha
    rcases mem_stepThen ha with rfl | ha; · rfl
    rcases mem_stepThen ha with rfl | ha; · rfl
    rcases mem_stepThen ha with rfl | ha; · rfl
    cases hpn : productNameOf env.srcProductName with
    | none => rw [hpn] at ha; simp at ha
    | some pn =>
      rw [hpn] at ha
      rcases mem_stepThen ha with rfl | ha; · rfl
      rw [ho] at ha
      simp only [Bool.false_eq_true, if_false] at ha
      rcases mem_stepThen ha with rfl | ha; · rfl
      rw [he] at ha
      simp at ha
  · intro hf
    unfold processDataset
    cases productNameOf env.srcProductName <;>
      simp [stepThen_snd, apply_ite Prod.snd, hf, ho, he]

/-- Witness for C6 at a concrete skip environment. -/
theorem c6_witness :
    (∀ a ∈ (processDataset
        ⟨"ga_s2am_ard_3", false, true, fun _ => false⟩).1,
      isHeavyWork a = false) ∧
    (processDataset ⟨"ga_s2am_ard_3", false, true, fun _ => false⟩).2
      = ProcResult.sysExitZero :=
  ⟨(c6_skip_if_exists ⟨"ga_s2am_ard_3", false, true, fun _ => false⟩
      rfl rfl).1,
   (c6_skip_if_exists ⟨"ga_s2am_ard_3", false, true, fun _ => false⟩
      rfl rfl).2 (fun _ => rfl)⟩

/-- C1 (divergence witness): `process_dataset` ends every path in
`sys.exit(0)` or an exception, and `SystemExit` is not an `Exception`, so
the `delete_message` call after it is unreachable.  Concretely, on a fully
succeeding environment a single queued message is processed end to end
(the upload step runs and the call ends in `SystemExit(0)`), yet the run
terminates with the message never acknowledged; and no run driven by
`process_dataset` outcomes ever deletes any message. -/
theorem c1_success_message_never_acknowledged :
    Action.uploadTif ∈ (processDataset
      ⟨"ga_s2am_ard_3", true, false, fun _ => false⟩).1 ∧
    (processDataset ⟨"ga_s2am_ard_3", true, false, fun _ => false⟩).2
      = ProcResult.sysExitZero ∧
    fmcProcessingWithSqs
        (fun _ => (processDataset
          ⟨"ga_s2am_ard_3", true, false, fun _ => false⟩).2)
        [["msg-1"]]
      = ⟨["msg-1"], [], RunEnd.systemExit⟩ ∧
    (∀ envOf : String → ProcEnv, ∀ polls : List (List String), ∀ cnt : Nat,
      (runLoop (fun m => (processDataset (envOf m)).2) 10 polls cnt).deleted
        = []) := by
  refine ⟨by decide, by decide, by decide, ?_⟩
  intro envOf polls cnt
  exact runLoop_no_delete _ (fun m => processDataset_never_returns (envOf m))
    10 polls cnt

/-- C2 (divergence witness): a preflight rejection — here an identifier
whose output already exists with overwrite disabled — makes
`process_dataset` raise `SystemExit(0)`, which escapes the
`except Exception` handler and aborts the whole batch: the second message
of the batch is never attempted.  Ordinary exceptions, by contrast, are
isolated: a batch of two failing identifiers attempts both and the loop
continues to the next poll. -/
theorem c2_rejection_aborts_batch :
    (processDataset ⟨"ga_s2am_ard_3", false, true, fun _ => false⟩).2
      = ProcResult.sysExitZero ∧
    fmcProcessingWithSqs
        (fun _ => (processDataset
          ⟨"ga_s2am_ard_3", false, true, fun _ => false⟩).2)
        [["msg-1", "msg-2"]]
      = ⟨["msg-1"], [], RunEnd.systemExit⟩ ∧
    "msg-2" ∉ (fmcProcessingWithSqs
        (fun _ => (processDataset
          ⟨"ga_s2am_ard_3", false, true, fun _ => false⟩).2)
        [["msg-1", "msg-2"]]).attempted ∧
    (fmcProcessingWithSqs
        (fun _ => (processDataset
          ⟨"ga_s2am_ard_3", false, true,
            fun a => a == Action.loadRaster⟩).2)
        [["msg-1", "msg-2"], []]).attempted = ["msg-1"] ∧
    (fmcProcessingWithSqs
        (fun _ => (processDataset
          ⟨"ga_s2am_ard_3", true, false,
            fun a => a == Action.loadRaster⟩).2)
        [["msg-1", "msg-2"], []]).attempted = ["msg-1", "msg-2"] := by
  refine ⟨by decide, by decide, by decide, by decide, by decide⟩

lemma uuidIteratorRun_all_empty (N : Nat) (polls : List (List String))
    (cnt : Nat) (hall : ∀ b ∈ polls, b = ([] : List String))
    (hlen : N ≤ cnt + polls.length) (hcnt : cnt < N) :
    uuidIteratorRun N polls cnt = ([], N - cnt) := by
  induction polls generalizing cnt with
  | nil => simp at hlen; omega
  | cons b rest ih =>
    have hb : b = [] := hall b (by simp)
    subst hb
    unfold uuidIteratorRun
    simp only [List.isEmpty_nil, if_true]
    by_cases h : N ≤ cnt + 1
    · rw [if_pos h]
      have : N - cnt = 1 := by omega
      rw [this]
    · rw [if_neg h]
      rw [ih (cnt + 1) (fun b2 hb2 => hall b2 (by simp [hb2]))
        (by simp at hlen ⊢; omega) (by omega)]
      have : N - (cnt + 1) + 1 = N - cnt := by omega
      simp [this]

/-- C9: the queue task source terminates after N consecutive empty polls —
on an all-empty poll trace of length at least N the iterator yields
nothing and performs exactly N polls; a non-empty poll hands the counter
back to zero regardless of its previous value; and the default limit is
10. -/
theorem c9_empty_poll_termination :
    (∀ N : Nat, ∀ polls : List (List String), 0 < N →
        (∀ b ∈ polls, b = ([] : List String)) → N ≤ polls.length →
        uuidIteratorRun N polls 0 = ([], N)) ∧
    (∀ N : Nat, ∀ batch : List String, ∀ rest : List (List String),
        ∀ cnt : Nat, batch.isEmpty = false →
        uuidIteratorRun N (batch :: rest) cnt
          = (batch.filterMap extractUuidFromBody
              ++ (uuidIteratorRun N rest 0).1,
             (uuidIteratorRun N rest 0).2 + 1)) ∧
    uuidIteratorRunDefault = uuidIteratorRun 10 ∧
    defaultMaxEmptyPolls = 10 := by
  refine ⟨?_, ?_, rfl, rfl⟩
  · intro N polls hN hall hlen
    have := uuidIteratorRun_all_empty N polls 0 hall (by omega) hN
    simpa using this
  · intro N batch rest cnt hb
    rw [uuidIteratorRun]
    rw [if_neg (by simp [hb])]

/-- Witness for C9: with the limit set to 1 an empty queue ends the
sequence after exactly one empty poll, and a non-empty poll resets the
counter. -/
theorem c9_witness :
    uuidIteratorRun 1 [[]] 0 = ([], 1) ∧
    uuidIteratorRun 10 [["not-a-uuid"], []] 7
      = ((["not-a-uuid"].filterMap extractUuidFromBody)
          ++ (uuidIteratorRun 10 [[]] 0).1,
         (uuidIteratorRun 10 [[]] 0).2 + 1) :=
  ⟨c9_empty_poll_termination.1 1 [[]] (by decide) (by decide) (by decide),
   c9_empty_poll_termination.2.1 10 ["not-a-uuid"] [[]] 7 (by decide)⟩

lemma stringMk_toList (s : String) : String.mk s.toList = s := rfl

lemma jsonSize_pos (j : Json) : 1 ≤ jsonSize j := by
  cases j <;> simp [jsonSize]

lemma jfieldsSize_pos (fs : JFields) : 1 ≤ jfieldsSize fs := by
  cases fs <;> simp [jfieldsSize]

lemma parseStrBody_quote (t : List Char) :
    parseStrBody ('"' :: t) = some ([], t) := by
  rw [parseStrBody.eq_def]
  simp

lemma parseStrBody_esc (d : Char) (t : List Char) :
    parseStrBody ('\\' :: d :: t)
      = (parseStrBody t).map (fun r => (d :: r.1, r.2)) := by
  rw [parseStrBody.eq_def]
  simp

lemma parseStrBody_plain (c : Char) (t : List Char) (h1 : c ≠ '"')
    (h2 : c ≠ '\\') :
    parseStrBody (c :: t) = (parseStrBody t).map (fun r => (c :: r.1, r.2)) := by
  rw [parseStrBody.eq_def]
  simp [h1, h2]

lemma parseStrBody_escapeChars (l rest : List Char) :
    parseStrBody (escapeChars l ++ '"' :: rest) = some (l, rest) := by
  induction l with
  | nil => simpa using parseStrBody_quote rest
  | cons c cs ih =>
    unfold escapeChars
    by_cases hc : c = '"' ∨ c = '\\'
    · rw [if_pos hc, List.cons_append, List.cons_append, parseStrBody_esc, ih]
      rfl
    · push_neg at hc
      rw [if_neg (by tauto), List.cons_append,
        parseStrBody_plain c _ hc.1 hc.2, ih]
      rfl

lemma parseVal_quote (f : Nat) (t : List Char) :
    parseVal (f + 1) ('"' :: t)
      = (parseStrBody t).map (fun r => (Json.jstr (String.mk r.1), r.2)) := by
  simp [parseVal]

lemma parseVal_openBrace (f : Nat) (t : List Char) :
    parseVal (f + 1) ('\x7b' :: t)
      = (parseFields f t).map (fun r => (Json.jobj r.1, r.2)) := by
  simp [parseVal]

lemma parseVal_other (f : Nat) (c : Char) (t : List Char) (h1 : c ≠ '"')
    (h2 : c ≠ '\x7b') :
    parseVal (f + 1) (c :: t) = none := by
  simp [parseVal, h1, h2]

lemma parseFields_closeBrace (f : Nat) (t : List Char) :
    parseFields (f + 1) ('\x7d' :: t) = some (JFields.nil, t) := by
  simp [parseFields]

lemma parseFields_entry (f : Nat) (kl : List Char) (B rest5 : List Char)
    (v : Json) (c2 : Char) (hv : parseVal f B = some (v, c2 :: rest5)) :
    parseFields (f + 1) ('"' :: (escapeChars kl ++ ('"' :: (':' :: B))))
      = (if c2 = ',' then
          (parseFields f rest5).map
            (fun r => (JFields.cons (String.mk kl) v r.1, r.2))
        else if c2 = '\x7d' then
          some (JFields.cons (String.mk kl) v JFields.nil, rest5)
        else none) := by
  simp only [parseFields, if_true]
  rw [parseStrBody_escapeChars]
  simp [hv]

mutual

theorem parseVal_render (j : Json) (fuel : Nat) (h : jsonSize j ≤ fuel)
    (rest : List Char) :
    parseVal fuel (renderVal j ++ rest) = some (j, rest) := by
  cases fuel with
  | zero =>
    have := jsonSize_pos j
    omega
  | succ f =>
    cases j with
    | jstr s =>
      rw [show renderVal (Json.jstr s) ++ rest
            = '"' :: (escapeChars s.toList ++ ('"' :: rest)) by
          simp [renderVal, renderStr]]
      rw [parseVal_quote, parseStrBody_escapeChars]
      simp [stringMk_toList]
    | jobj fs =>
      rw [show renderVal (Json.jobj fs) ++ rest
            = '\x7b' :: (renderFields fs ++ rest) by simp [renderVal]]
      rw [parseVal_openBrace,
        parseFields_render fs f (by simp [jsonSize] at h; omega) rest]
      rfl
termination_by jsonSize j
decreasing_by
  all_goals simp_wf
  all_goals subst_vars
  all_goals simp [jsonSize, jfieldsSize]

theorem parseFields_render (fs : JFields) (fuel : Nat)
    (h : jfieldsSize fs ≤ fuel) (rest : List Char) :
    parseFields fuel (renderFields fs ++ rest) = some (fs, rest) := by
  cases fuel with
  | zero =>
    have := jfieldsSize_pos fs
    omega
  | succ f =>
    cases fs with
    | nil =>
      rw [show renderFields JFields.nil ++ rest = '\x7d' :: rest by
        simp [renderFields]]
      exact parseFields_closeBrace f rest
    | cons k v fs2 =>
      have hv : jsonSize v ≤ f := by
        simp [jfieldsSize] at h
        have := jfieldsSize_pos fs2
        omega
      cases fs2 with
      | nil =>
        rw [show renderFields (JFields.cons k v JFields.nil) ++ rest
              = '"' :: (escapeChars k.toList
                  ++ ('"' :: (':' :: (renderVal v ++ ('\x7d' :: rest))))) by
            simp [renderFields, renderStr]]
        rw [parseFields_entry f k.toList _ rest v '\x7d'
          (parseVal_render v f hv ('\x7d' :: rest))]
        rw [if_neg (by decide), if_pos rfl, stringMk_toList]
      | cons k2 v2 fs3 =>
        have hf2 : jfieldsSize (JFields.cons k2 v2 fs3) ≤ f := by
          simp [jfieldsSize] at h ⊢
          have := jsonSize_pos v
          omega
        rw [show renderFields (JFields.cons k v (JFields.cons k2 v2 fs3)) ++ rest
              = '"' :: (escapeChars k.toList
                  ++ ('"' :: (':' :: (renderVal v
                      ++ (',' :: (renderFields (JFields.cons k2 v2 fs3)
                          ++ rest)))))) by
            simp [renderFields, renderStr]]
        rw [parseFields_entry f k.toList _
            (renderFields (JFields.cons k2 v2 fs3) ++ rest) v ','
          (parseVal_render v f hv
            (',' :: (renderFields (JFields.cons k2 v2 fs3) ++ rest)))]
        rw [if_pos rfl,
          parseFields_render (JFields.cons k2 v2 fs3) f hf2 rest]
        simp [stringMk_toList]
termination_by jfieldsSize fs
decreasing_by
  all_goals simp_wf
  all_goals subst_vars
  all_goals simp [jsonSize, jfieldsSize]
  all_goals omega

end

mutual

theorem jsonSize_le_renderVal_length (j : Json) :
    jsonSize j ≤ (renderVal j).length := by
  cases j with
  | jstr s => simp [jsonSize, renderVal, renderStr]
  | jobj fs =>
    have := jfieldsSize_le_renderFields_length fs
    simp [jsonSize, renderVal]
    omega
termination_by jsonSize j
decreasing_by
  all_goals simp_wf
  all_goals subst_vars
  all_goals simp [jsonSize, jfieldsSize]

theorem jfieldsSize_le_renderFields_length (fs : JFields) :
    jfieldsSize fs ≤ (renderFields fs).length := by
  cases fs with
  | nil => simp [jfieldsSize, renderFields]
  | cons k v fs2 =>
    have hv := jsonSize_le_renderVal_length v
    cases fs2 with
    | nil =>
      simp [jfieldsSize, renderFields, renderStr]
      omega
    | cons k2 v2 fs3 =>
      have hf := jfieldsSize_le_renderFields_length (JFields.cons k2 v2 fs3)
      simp [jfieldsSize, renderFields, renderStr] at hf ⊢
      omega
termination_by jfieldsSize fs
decreasing_by
  all_goals simp_wf
  all_goals subst_vars
  all_goals simp [jsonSize, jfieldsSize]
  all_goals omega

end

lemma option_orElse_cases {α : Type} {a b : Option α} {u : α}
    (h : (a <|> b) = some u) : a = some u ∨ (a = none ∧ b = some u) := by
  cases a <;> simp_all

lemma validated_eq_some {s u : String} (h : validated s = some u) :
    isValidUuid u = true ∧ u = s := by
  unfold validated at h
  by_cases hs : isValidUuid s = true
  · rw [if_pos hs] at h
    cases h
    exact ⟨hs, rfl⟩
  · rw [if_neg hs] at h
    cases h

lemma validated_of_valid {u : String} (h : isValidUuid u = true) :
    validated u = some u := by
  simp [validated, h]

lemma extractUuidBase_valid (j : Json) (u : String)
    (h : extractUuidBase j = some u) : isValidUuid u = true := by
  cases j with
  | jstr s => exact (validated_eq_some h).1
  | jobj fs =>
    unfold extractUuidBase at h
    rcases option_orElse_cases h with h1 | ⟨_, h1⟩
    · rcases Option.bind_eq_some.mp h1 with ⟨s, _, hv⟩
      exact (validated_eq_some hv).1
    · rcases option_orElse_cases h1 with h2 | ⟨_, h2⟩
      · rcases Option.bind_eq_some.mp h2 with ⟨s, _, hv⟩
        exact (validated_eq_some hv).1
      · rcases Option.bind_eq_some.mp h2 with ⟨s, _, hv⟩
        exact (validated_eq_some hv).1

lemma extractEnvelope_none_of_jstr (s : String) :
    extractEnvelope (Json.jstr s) = none := rfl

lemma extractEnvelope_no_msg (fs : JFields)
    (hm : getStrField fs "Message" = none) :
    extractEnvelope (Json.jobj fs) = none := by
  show (match getStrField fs "Message" with
    | some s => (parseFullDoc s).bind extractUuidBase
    | none => none) = none
  rw [hm]

lemma extractEnvelope_msg (fs : JFields) (s : String)
    (hm : getStrField fs "Message" = some s) :
    extractEnvelope (Json.jobj fs) = (parseFullDoc s).bind extractUuidBase := by
  show (match getStrField fs "Message" with
    | some s2 => (parseFullDoc s2).bind extractUuidBase
    | none => none) = (parseFullDoc s).bind extractUuidBase
  rw [hm]

lemma extractBody_parsed (body : String) (j : Json)
    (hp : parseFullDoc body = some j) :
    extractUuidFromBody body = extractUuidFromJson j := by
  unfold extractUuidFromBody
  rw [hp]

lemma extractBody_unparsed (body : String) (hp : parseFullDoc body = none) :
    extractUuidFromBody body = validated body := by
  unfold extractUuidFromBody
  rw [hp]

lemma extractUuidFromJson_valid (j : Json) (u : String)
    (h : extractUuidFromJson j = some u) : isValidUuid u = true := by
  unfold extractUuidFromJson at h
  rcases option_orElse_cases h with h1 | ⟨_, h1⟩
  · exact extractUuidBase_valid _ _ h1
  · cases j with
    | jstr s => rw [extractEnvelope_none_of_jstr] at h1; cases h1
    | jobj fs =>
      cases hm : getStrField fs "Message" with
      | none => rw [extractEnvelope_no_msg fs hm] at h1; cases h1
      | some s =>
        rw [extractEnvelope_msg fs s hm] at h1
        rcases Option.bind_eq_some.mp h1 with ⟨inner, _, hb⟩
        exact extractUuidBase_valid _ _ hb

lemma extractUuidFromBody_valid (body u : String)
    (h : extractUuidFromBody body = some u) : isValidUuid u = true := by
  cases hp : parseFullDoc body with
  | none =>
    rw [extractBody_unparsed body hp] at h
    exact (validated_eq_some h).1
  | some j =>
    rw [extractBody_parsed body j hp] at h
    exact extractUuidFromJson_valid _ _ h

lemma isHexDigit_not_special (c : Char) (h : isHexDigit c = true) :
    c ≠ '"' ∧ c ≠ '\x7b' := by
  constructor
  · intro he
    subst he
    exact absurd h (by decide)
  · intro he
    subst he
    exact absurd h (by decide)

lemma isValidUuid_head (u : String) (h : isValidUuid u = true) :
    ∃ c t, u.toList = c :: t ∧ c ≠ '"' ∧ c ≠ '\x7b' := by
  unfold isValidUuid at h
  rw [Bool.and_eq_true] at h
  obtain ⟨hlen, hall⟩ := h
  have hlen2 : u.toList.length = 36 := by simpa using hlen
  cases hu : u.toList with
  | nil => rw [hu] at hlen2; simp at hlen2
  | cons c t =>
    have h0 := (List.all_eq_true.mp hall) 0 (by decide)
    rw [if_neg (by decide)] at h0
    rw [hu] at h0
    simp only [List.getD_cons_zero] at h0
    obtain ⟨h1, h2⟩ := isHexDigit_not_special c h0
    exact ⟨c, t, rfl, h1, h2⟩

lemma parseVal_bare_uuid (u : String) (h : isValidUuid u = true) (n : Nat) :
    parseVal (n + 1) u.toList = none := by
  obtain ⟨c, t, hu, h1, h2⟩ := isValidUuid_head u h
  rw [hu]
  exact parseVal_other n c t h1 h2

lemma parseVal_render_exact (j : Json) (fuel : Nat) (h : jsonSize j ≤ fuel) :
    parseVal fuel (renderVal j) = some (j, []) := by
  have h2 := parseVal_render j fuel h []
  simpa using h2

/-- A rendered JSON document parses back to itself as a full document. -/
lemma parseFullDoc_render (j : Json) :
    parseFullDoc (String.mk (renderVal j)) = some j := by
  unfold parseFullDoc
  rw [show (String.mk (renderVal j)).toList = renderVal j from rfl]
  rw [parseVal_render_exact j ((renderVal j).length + 1)
    (le_trans (jsonSize_le_renderVal_length j) (by omega))]

/-- A bare valid identifier is not JSON: the full-document parse fails. -/
lemma parseFullDoc_bare_uuid (u : String) (h : isValidUuid u = true) :
    parseFullDoc u = none := by
  unfold parseFullDoc
  rw [parseVal_bare_uuid u h]

/-- The body built from a rendered JSON document is parsed back to that
document and probed by the per-document extraction. -/
lemma extractUuidFromBody_render (j : Json) :
    extractUuidFromBody (String.mk (renderVal j)) = extractUuidFromJson j :=
  extractBody_parsed _ _ (parseFullDoc_render j)

lemma getStrField_of_lookup (fs : JFields) (k u : String)
    (h : lookupField fs k = some (Json.jstr u)) : getStrField fs k = some u := by
  unfold getStrField
  rw [h]

/-- C8: identifier extraction, modelled from the spec, accepts all five
message-body shapes — a bare identifier; an object with `id`; an object
with `dataset_uuid`; an object with a nested `feature.id`; an envelope
whose `Message` field holds a stringified JSON document — returning the
embedded identifier, and on every other body it returns no identifier (it
is a total function into an optional result, so nothing raises, and any
identifier it returns passed the validity test). -/
theorem c8_extraction_shapes :
    (∀ u : String, isValidUuid u = true → extractUuidFromBody u = some u) ∧
    (∀ u : String, ∀ fs : JFields, isValidUuid u = true →
        lookupField fs "id" = some (Json.jstr u) →
        extractUuidFromBody (String.mk (renderVal (Json.jobj fs))) = some u) ∧
    (∀ u : String, ∀ fs : JFields, isValidUuid u = true →
        getStrField fs "id" = none →
        lookupField fs "dataset_uuid" = some (Json.jstr u) →
        extractUuidFromBody (String.mk (renderVal (Json.jobj fs))) = some u) ∧
    (∀ u : String, ∀ fs gs : JFields, isValidUuid u = true →
        getStrField fs "id" = none →
        getStrField fs "dataset_uuid" = none →
        lookupField fs "feature" = some (Json.jobj gs) →
        lookupField gs "id" = some (Json.jstr u) →
        extractUuidFromBody (String.mk (renderVal (Json.jobj fs))) = some u) ∧
    (∀ u : String, ∀ fs : JFields, ∀ inner : Json, isValidUuid u = true →
        extractUuidBase (Json.jobj fs) = none →
        lookupField fs "Message"
          = some (Json.jstr (String.mk (renderVal inner))) →
        extractUuidBase inner = some u →
        extractUuidFromBody (String.mk (renderVal (Json.jobj fs))) = some u) ∧
    (∀ body : String, extractUuidFromBody body = none ∨
        ∃ u, extractUuidFromBody body = some u ∧ isValidUuid u = true) := by
  refine ⟨?_, ?_, ?_, ?_, ?_, ?_⟩
  · intro u hu
    rw [extractBody_unparsed u (parseFullDoc_bare_uuid u hu)]
    exact validated_of_valid hu
  · intro u fs hu hl
    rw [extractUuidFromBody_render (Json.jobj fs)]
    unfold extractUuidFromJson
    simp [extractUuidBase, getStrField_of_lookup fs "id" u hl,
      validated_of_valid hu]
  · intro u fs hu hid hl
    rw [extractUuidFromBody_render (Json.jobj fs)]
    unfold extractUuidFromJson
    simp [extractUuidBase, hid, getStrField_of_lookup fs "dataset_uuid" u hl,
      validated_of_valid hu]
  · intro u fs gs hu hid hdu hl hgid
    rw [extractUuidFromBody_render (Json.jobj fs)]
    unfold extractUuidFromJson
    simp [extractUuidBase, hid, hdu, hl,
      getStrField_of_lookup gs "id" u hgid, validated_of_valid hu]
  · intro u fs inner hu hbase hm hinner
    rw [extractUuidFromBody_render (Json.jobj fs)]
    unfold extractUuidFromJson
    rw [hbase, Option.none_orElse]
    rw [extractEnvelope_msg fs _ (getStrField_of_lookup fs "Message" _ hm)]
    rw [parseFullDoc_render inner]
    simp [hinner]
  · intro body
    cases h : extractUuidFromBody body with
    | none => exact Or.inl rfl
    | some u => exact Or.inr ⟨u, rfl, extractUuidFromBody_valid body u h⟩

/-- Witness for C8 at the test-suite identifier: a bare body, a STAC
feature body, and a malformed body. -/
theorem c8_witness :
    extractUuidFromBody "44220f30-1ece-4b16-b3e1-b117ac61184f"
      = some "44220f30-1ece-4b16-b3e1-b117ac61184f" ∧
    extractUuidFromBody (String.mk (renderVal (Json.jobj
        (JFields.cons "type" (Json.jstr "Feature")
          (JFields.cons "id"
            (Json.jstr "44220f30-1ece-4b16-b3e1-b117ac61184f")
            JFields.nil)))))
      = some "44220f30-1ece-4b16-b3e1-b117ac61184f" ∧
    extractUuidFromBody "not-a-uuid" = none :=
  ⟨c8_extraction_shapes.1 _ (by decide),
   c8_extraction_shapes.2.1 _ _ (by decide) (by decide),
   by decide⟩

end DeaFmc
